import Mathlib

/-!
Shallow embedding of `peers_checker.py` (HaOtiC/web3_tools).

The script probes a list of peer descriptors (`id@host:port`), filters them
by connectivity, latency bound and block-height tolerance, ranks the accepted
records by height and writes output files.  Network effects are modelled by
an oracle (`Network`) supplying the results of `check_connection` and
`get_latest_block_height`; the thread pool's completion order is modelled by
the order of the list handed to `check_nodes` (the scheduler consumes futures
in completion order).  File writes are modelled as updates to a finite map
from filenames to contents.
-/

namespace PeersChecker

/-! ### Models of the Python primitives used by the script

All string manipulation is modelled structurally over `List Char` so that the
definitions evaluate by kernel reduction. -/

/-- Model of Python `s.split(sep)` for a one-character separator: splits at
every occurrence of `sep`, keeping empty parts (`"".split(',') == ['']`,
`"a@@b".split('@') == ['a', '', 'b']`). -/
def splitCharAux (sep : Char) : List Char → List Char → List String
  | [], acc => [String.mk acc.reverse]
  | c :: rest, acc =>
    if c = sep then String.mk acc.reverse :: splitCharAux sep rest []
    else splitCharAux sep rest (c :: acc)

/-- Python `s.split(sep)` with a one-character separator. -/
def pySplit (s : String) (sep : Char) : List String :=
  splitCharAux sep s.toList []

/-- Whitespace characters stripped by Python `str.strip()` (ASCII range). -/
def isPyWhitespace (c : Char) : Bool :=
  c = ' ' || c = '\t' || c = '\n' || c = '\x0d' || c = '\x0b' || c = '\x0c'

/-- Python `s.strip()`: remove leading and trailing whitespace. -/
def pyStrip (s : String) : String :=
  String.mk (((s.toList.dropWhile isPyWhitespace).reverse.dropWhile
    isPyWhitespace).reverse)

/-- Value of a digit list in base 10 (underscores already removed). -/
def digitsVal (l : List Char) : Nat :=
  l.foldl (fun a c => a * 10 + (c.toNat - ('0').toNat)) 0

/-- Digits after the first one: digits, with single underscores allowed
between digits (Python 3 numeric-literal rule used by `int(str)`). -/
def digitsTail : List Char → Bool
  | [] => true
  | c :: rest =>
    if c = '_' then
      match rest with
      | [] => false
      | d :: rest2 => d.isDigit && digitsTail rest2
    else c.isDigit && digitsTail rest

/-- A valid unsigned digit run for Python `int(str)`: nonempty, starts with a
digit, underscores only between digits. -/
def digitsOk : List Char → Bool
  | [] => false
  | c :: rest => c.isDigit && digitsTail rest

/-- Model of Python `int(s)` in base 10: optional surrounding whitespace,
optional sign, then a nonempty digit run in which single underscores may
separate digits.  Returns `none` where Python raises `ValueError`. -/
def pyIntOfString (s : String) : Option Int :=
  match (pyStrip s).toList with
  | '+' :: rest =>
      if digitsOk rest then some (digitsVal (rest.filter (fun c => c ≠ '_'))) else none
  | '-' :: rest =>
      if digitsOk rest then some (-(digitsVal (rest.filter (fun c => c ≠ '_')) : Int)) else none
  | t => if digitsOk t then some (digitsVal (t.filter (fun c => c ≠ '_'))) else none

/-- Model of Python `int(x)` on a real number: truncation toward zero
(`int(2.7) = 2`, `int(-2.7) = -2`).  Latencies are modelled as rationals. -/
def pyTrunc (q : ℚ) : Int :=
  if 0 ≤ q then ⌊q⌋ else ⌈q⌉

/-- An exception escaping a Python call in the modelled fragment.  The only
statement in `process_line` that can raise is `int(ip_port[1])`. -/
inductive PyError where
  | valueError (s : String)
deriving DecidableEq

/-- Result of a Python call: normal return value, or an escaping exception. -/
inductive PyResult (α : Type) where
  | ok (a : α)
  | error (e : PyError)
deriving DecidableEq

/-! ### Data model -/

/-- The dict built by `process_line` for an accepted peer (the entry of the
structured metadata artifact). -/
structure MonikerInfo where
  moniker : String
  node_id : String
  ip : String
  port : Int
  full_peer : String
  latency : Int
deriving DecidableEq

/-- An accepted record as accumulated by `check_nodes`:
`(line, block_height, moniker_info)` mirroring the tuple
`(result[0], result[1], result[2])`. -/
abbrev PeerRec := String × Int × MonikerInfo

/-- Network oracle.  `conn ip port` is the outcome of
`check_connection(ip, port)`: `some latency` for a successful connection
(latency in milliseconds), `none` for `(False, None)`.  `status ip rpc_port`
is the outcome of `get_latest_block_height(ip, rpc_port)`: `some (height,
moniker, node_id)` on success, `none` for the failure triple
`(None, "", "")`. -/
structure Network where
  conn : String → Int → Option ℚ
  status : String → Int → Option (Int × String × String)

/-! ### `process_line` -/

/-- Shallow embedding of `process_line(line, expected_height, max_latency,
accepted_height_difference)`.  `PyResult.error` models an exception escaping
the call (here: `ValueError` from `int(ip_port[1])`); `PyResult.ok none`
models a `return None`. -/
def process_line (net : Network) (line : String) (expected_height : Int)
    (max_latency : Option Int) (accepted_height_difference : Int) :
    PyResult (Option PeerRec) :=
  match pySplit line '@' with
  | [_, hostport] =>
    match pySplit hostport ':' with
    | [ip, portStr] =>
      match pyIntOfString portStr with
      | none => .error (.valueError portStr)
      | some port =>
        match net.conn ip port with
        | some latency =>
          if (match max_latency with
              | none => true
              | some m => decide (latency ≤ (m : ℚ))) then
            match net.status ip (port + 1) with
            | some (block_height, moniker, node_id) =>
              if |block_height - expected_height| ≤ accepted_height_difference then
                .ok (some (line, block_height,
                  { moniker := moniker
                    node_id := node_id
                    ip := ip
                    port := port
                    full_peer := node_id ++ "@" ++ ip ++ ":" ++ toString port
                    latency := pyTrunc latency }))
              else .ok none
            | none => .ok none
          else .ok none
        | none => .ok none
    | _ => .ok none
  | _ => .ok none

/-! ### `check_nodes`

The thread pool (`ThreadPoolExecutor` + `as_completed`) yields futures in
completion order; `check_nodes` is modelled as a fold over the lines in that
order.  The third component models the per-line error log produced by the
`except` clause (`"Error processing line {line}: {e}"`): an exception raised
inside one task is caught there, contributes no record and the loop
continues. -/

def check_nodes (net : Network) (lines : List String) (expected_height : Int)
    (max_latency : Option Int) (accepted_height_difference : Int) :
    List PeerRec × List MonikerInfo × List (String × PyError) :=
  lines.foldl
    (fun acc line =>
      match process_line net line expected_height max_latency accepted_height_difference with
      | .ok (some r) => (acc.1 ++ [r], acc.2.1 ++ [r.2.2], acc.2.2)
      | .ok none => acc
      | .error e => (acc.1, acc.2.1, acc.2.2 ++ [(line, e)]))
    ([], [], [])

/-! ### Ranking: `connections.sort(key=lambda x: x[1], reverse=True)`

Python's `list.sort` is stable, and `reverse=True` keeps equal-key elements
in their original relative order.  A stable descending sort by key is unique
as a function of the input list, so it is modelled by stable insertion
sort. -/

/-- Insert `x` before the first element whose height (second component) is
`≤ x`'s; elements passed over have strictly greater height, so equal-height
elements already present stay in front of `x` (stability). -/
def insertDesc (x : PeerRec) : List PeerRec → List PeerRec
  | [] => [x]
  | y :: ys => if y.2.1 ≤ x.2.1 then x :: y :: ys else y :: insertDesc x ys

/-- Stable descending sort by block height, modelling
`connections.sort(key=lambda x: x[1], reverse=True)`. -/
def pySortDesc : List PeerRec → List PeerRec
  | [] => []
  | x :: xs => insertDesc x (pySortDesc xs)

/-! ### Output files -/

/-- Content written by the `for conn in ...` loops: first entry bare, each
further entry preceded by a comma. -/
def commaJoin : List String → String
  | [] => ""
  | x :: xs => xs.foldl (fun acc s => acc ++ ("," ++ s)) x

/-- Model of Python `s.replace(old, new)` for a nonempty `old`
(`p :: ps`): scan left to right, replacing each (non-overlapping)
occurrence.  The recursion is driven by a fuel argument so that the
function is structurally recursive; every step consumes at least one
character, so fuel equal to the string length never runs out. -/
def pyReplaceCore (p : Char) (ps rep : List Char) : Nat → List Char → List Char
  | _, [] => []
  | 0, s => s
  | fuel + 1, c :: rest =>
    if (p :: ps).isPrefixOf (c :: rest) then
      rep ++ pyReplaceCore p ps rep fuel (rest.drop ps.length)
    else c :: pyReplaceCore p ps rep fuel rest

/-- Model of Python `s.replace(old, new)`.  An empty `old` interleaves `new`
around every character, as Python does. -/
def pyReplace (s pat rep : String) : String :=
  match pat.toList with
  | [] => String.mk (rep.toList ++ s.toList.foldr (fun c acc => c :: (rep.toList ++ acc)) [])
  | p :: ps => String.mk (pyReplaceCore p ps rep.toList s.toList.length s.toList)

/-- Does `pat` occur as a contiguous sublist of `s`? -/
def occursIn (pat : List Char) : List Char → Bool
  | [] => pat.isEmpty
  | c :: rest => pat.isPrefixOf (c :: rest) || occursIn pat rest

/-- Does `pat` occur as a substring of `s`? -/
def occursStr (pat s : String) : Bool :=
  occursIn pat.toList s.toList

/-- The file system, as a map from filename to written content. -/
def FileSys := String → Option String

/-- Model of `open(name, 'w')` followed by writes of `content`. -/
def writeFile (fs : FileSys) (name content : String) : FileSys :=
  fun n => if n = name then some content else fs n

/-- A file system with nothing written yet. -/
def emptyFS : FileSys := fun _ => none

/-- The filename derived in `save_ids_only`:
`output_filename.replace('.txt', '_ids_only.txt')`. -/
def ids_only_filename (output_filename : String) : String :=
  pyReplace output_filename ".txt" "_ids_only.txt"

/-- Shallow embedding of `save_ids_only(connections, output_filename)`:
writes the comma-joined `node_id`s of `connections` to the derived
filename. -/
def save_ids_only (fs : FileSys) (connections : List PeerRec)
    (output_filename : String) : FileSys :=
  writeFile fs (ids_only_filename output_filename)
    (commaJoin (connections.map (fun c => c.2.2.node_id)))

/-- The truncated sorted list `connections[:top_n]` after the in-place
descending sort. -/
def top_connections (connections : List PeerRec) (top_n : Nat) : List PeerRec :=
  (pySortDesc connections).take top_n

/-- Shallow embedding of
`save_top_connections(connections, output_filename, top_n)`: sorts by height
descending (stable), truncates to `top_n`, writes the comma-joined lines
(`conn[0]`) to `output_filename`, then calls `save_ids_only` on the same
truncated list.  Returns the updated file system and `len(top_connections)`
(the function's return value). -/
def save_top_connections (fs : FileSys) (connections : List PeerRec)
    (output_filename : String) (top_n : Nat) : FileSys × Nat :=
  let top := top_connections connections top_n
  let fs1 := writeFile fs output_filename (commaJoin (top.map (fun c => c.1)))
  let fs2 := save_ids_only fs1 top output_filename
  (fs2, top.length)

/-! ### `parse_file` and the `__main__` guard -/

/-- Shallow embedding of the successful-read path of `parse_file`:
`file.read().strip().split(',')`.  (An `IOError` makes `parse_file` return
`[]` instead.) -/
def parse_file_content (content : String) : List String :=
  pySplit (pyStrip content) ','

/-- Outcome of the `__main__` guard after reading the peers file. -/
inductive FileSourceOutcome where
  | exitFailure
  | proceed (lines : List String)
deriving DecidableEq

/-- Model of the `__main__` block for the file-sourced peer list: `lines =
parse_file(path)` followed by `if not lines: sys.exit(1)`.  `content` is
what `file.read()` returned. -/
def main_lines_from_file (content : String) : FileSourceOutcome :=
  let lines := parse_file_content content
  if lines.isEmpty then .exitFailure else .proceed lines

/-! ### The run after the peer lines are fixed -/

/-- The output artifacts of one run: text files written, the structured
metadata artifact (present when `json_format`, holding the list passed to
`json.dump`), and the matched/saved counters reported in the summary. -/
structure RunOutputs where
  fs : FileSys
  moniker_file : Option (List MonikerInfo)
  matched : Nat
  saved : Nat

/-- Model of `__main__` from `check_nodes` on: probe all lines (in completion
order), rank and save the top connections, and, when `json_format` is set,
dump the full `moniker_info` list to the
`output_filename.replace('.txt', '_moniker_objs.json')` artifact. -/
def run_checker (net : Network) (lines : List String) (expected_height : Int)
    (max_latency : Option Int) (accepted_height_difference : Int)
    (top_n : Nat) (output_filename : String) (json_format : Bool) : RunOutputs :=
  let res := check_nodes net lines expected_height max_latency accepted_height_difference
  let saveRes := save_top_connections emptyFS res.1 output_filename top_n
  { fs := saveRes.1
    moniker_file := if json_format then some res.2.1 else none
    matched := res.1.length
    saved := saveRes.2 }

/-! ### Derived views of one line's outcome (used to state the fold's
result) -/

/-- The accepted record a line contributes to `successful_connections`,
if any. -/
def acceptedRec (net : Network) (expected_height : Int) (max_latency : Option Int)
    (accepted_height_difference : Int) (line : String) : Option PeerRec :=
  match process_line net line expected_height max_latency accepted_height_difference with
  | .ok (some r) => some r
  | _ => none

/-- The entry a line contributes to `moniker_info`, if any. -/
def acceptedInfo (net : Network) (expected_height : Int) (max_latency : Option Int)
    (accepted_height_difference : Int) (line : String) : Option MonikerInfo :=
  match process_line net line expected_height max_latency accepted_height_difference with
  | .ok (some r) => some r.2.2
  | _ => none

/-- The per-line error-log entry a line contributes, if any. -/
def errorLog (net : Network) (expected_height : Int) (max_latency : Option Int)
    (accepted_height_difference : Int) (line : String) : Option (String × PyError) :=
  match process_line net line expected_height max_latency accepted_height_difference with
  | .error e => some (line, e)
  | _ => none

/-! ### Concrete networks used to evaluate the model on closed inputs -/

/-- Every peer reachable at 20 ms, every status reports height 1003. -/
def netA : Network :=
  { conn := fun _ _ => some 20
    status := fun _ _ => some (1003, "m", "id9") }

/-- Every peer reachable at 20 ms, every status reports height 990. -/
def netB : Network :=
  { conn := fun _ _ => some 20
    status := fun _ _ => some (990, "m", "id9") }

/-- Reachable at 10 ms; host `h1` reports height 1, any other host
height 2. -/
def netC : Network :=
  { conn := fun _ _ => some 10
    status := fun ip _ =>
      if ip = "h1" then some (1, "ma", "idA") else some (2, "mb", "idB") }

/-- Every peer reachable at 75 ms, every status reports height 1000. -/
def netD : Network :=
  { conn := fun _ _ => some 75
    status := fun _ _ => some (1000, "m", "id9") }

end PeersChecker

/-! ## Lemmas -/

namespace PeersChecker

theorem check_nodes_aux (net : Network) (eh : Int) (ml : Option Int) (ahd : Int) :
    ∀ (lines : List String) (a : List PeerRec) (b : List MonikerInfo)
      (c : List (String × PyError)),
      lines.foldl
        (fun acc line =>
          match process_line net line eh ml ahd with
          | .ok (some r) => (acc.1 ++ [r], acc.2.1 ++ [r.2.2], acc.2.2)
          | .ok none => acc
          | .error e => (acc.1, acc.2.1, acc.2.2 ++ [(line, e)]))
        (a, b, c) =
      (a ++ lines.filterMap (acceptedRec net eh ml ahd),
       b ++ lines.filterMap (acceptedInfo net eh ml ahd),
       c ++ lines.filterMap (errorLog net eh ml ahd)) := by
  intro lines
  induction lines with
  | nil => intro a b c; simp
  | cons hd tl ih =>
    intro a b c
    simp only [List.foldl_cons, List.filterMap_cons]
    cases hpl : process_line net hd eh ml ahd with
    | ok o =>
      cases o with
      | some r =>
        simp only [acceptedRec, acceptedInfo, errorLog, hpl]
        rw [ih]
        simp
      | none =>
        simp only [acceptedRec, acceptedInfo, errorLog, hpl]
        rw [ih]
    | error e =>
      simp only [acceptedRec, acceptedInfo, errorLog, hpl]
      rw [ih]
      simp

/-- The function `check_nodes` collects, in completion order, exactly the accepted
records, their info dicts, and the error-log entries. -/
theorem check_nodes_eq (net : Network) (lines : List String) (eh : Int)
    (ml : Option Int) (ahd : Int) :
    check_nodes net lines eh ml ahd =
      (lines.filterMap (acceptedRec net eh ml ahd),
       lines.filterMap (acceptedInfo net eh ml ahd),
       lines.filterMap (errorLog net eh ml ahd)) := by
  unfold check_nodes
  rw [check_nodes_aux]
  simp

theorem insertDesc_perm (x : PeerRec) (l : List PeerRec) :
    List.Perm (insertDesc x l) (x :: l) := by
  induction l with
  | nil => rfl
  | cons y ys ih =>
    rw [insertDesc]
    by_cases h : y.2.1 ≤ x.2.1
    · rw [if_pos h]
    · rw [if_neg h]
      exact (ih.cons y).trans (List.Perm.swap x y ys)

theorem pySortDesc_perm (l : List PeerRec) : List.Perm (pySortDesc l) l := by
  induction l with
  | nil => rfl
  | cons x xs ih =>
    rw [pySortDesc]
    exact (insertDesc_perm x (pySortDesc xs)).trans (ih.cons x)

theorem insertDesc_pairwise (x : PeerRec) (l : List PeerRec)
    (h : l.Pairwise (fun a b => b.2.1 ≤ a.2.1)) :
    (insertDesc x l).Pairwise (fun a b => b.2.1 ≤ a.2.1) := by
  induction l with
  | nil => simp [insertDesc]
  | cons y ys ih =>
    rw [insertDesc]
    rcases List.pairwise_cons.mp h with ⟨hy, hys⟩
    by_cases hc : y.2.1 ≤ x.2.1
    · rw [if_pos hc]
      refine List.pairwise_cons.mpr ⟨?_, h⟩
      intro z hz
      rcases List.mem_cons.mp hz with rfl | hz'
      · exact hc
      · exact le_trans (hy z hz') hc
    · rw [if_neg hc]
      refine List.pairwise_cons.mpr ⟨?_, ih hys⟩
      intro z hz
      rcases List.mem_cons.mp ((insertDesc_perm x ys).mem_iff.mp hz) with rfl | hz'
      · exact le_of_lt (lt_of_not_le hc)
      · exact hy z hz'

theorem pySortDesc_pairwise (l : List PeerRec) :
    (pySortDesc l).Pairwise (fun a b => b.2.1 ≤ a.2.1) := by
  induction l with
  | nil => simp [pySortDesc]
  | cons x xs ih =>
    rw [pySortDesc]
    exact insertDesc_pairwise x _ ih

theorem insertDesc_filter_height (x : PeerRec) (l : List PeerRec) (ht : Int) :
    (insertDesc x l).filter (fun r => decide (r.2.1 = ht)) =
      ((x :: l).filter (fun r => decide (r.2.1 = ht))) := by
  induction l with
  | nil => rfl
  | cons y ys ih =>
    rw [insertDesc]
    by_cases hc : y.2.1 ≤ x.2.1
    · rw [if_pos hc]
    · rw [if_neg hc]
      by_cases hx : x.2.1 = ht
      · have hy : ¬(y.2.1 = ht) := by
          intro hy
          exact hc (le_of_eq (hy.trans hx.symm))
        simp [List.filter_cons, hx, hy, ih]
      · simp [List.filter_cons, hx, ih]

theorem pySortDesc_filter_height (l : List PeerRec) (ht : Int) :
    (pySortDesc l).filter (fun r => decide (r.2.1 = ht)) =
      l.filter (fun r => decide (r.2.1 = ht)) := by
  induction l with
  | nil => rfl
  | cons x xs ih =>
    rw [pySortDesc, insertDesc_filter_height]
    simp [List.filter_cons, ih]

theorem pyTrunc_le_intCast {q : ℚ} {m : Int} (h : q ≤ (m : ℚ)) : pyTrunc q ≤ m := by
  unfold pyTrunc
  by_cases h0 : 0 ≤ q
  · rw [if_pos h0]
    calc ⌊q⌋ ≤ ⌊(m : ℚ)⌋ := Int.floor_le_floor h
    _ = m := Int.floor_intCast m
  · rw [if_neg h0]
    calc ⌈q⌉ ≤ ⌈(m : ℚ)⌉ := Int.ceil_le_ceil h
    _ = m := Int.ceil_intCast m

theorem pyReplaceCore_of_not_occurs (p : Char) (ps rep : List Char) :
    ∀ (s : List Char) (fuel : Nat), occursIn (p :: ps) s = false →
      pyReplaceCore p ps rep fuel s = s := by
  intro s
  induction s with
  | nil => intro fuel _; cases fuel <;> rfl
  | cons c rest ih =>
    intro fuel h
    rw [occursIn, Bool.or_eq_false_iff] at h
    cases fuel with
    | zero => rfl
    | succ n =>
      rw [pyReplaceCore, h.1]
      simp only [Bool.false_eq_true, if_false]
      rw [ih n h.2]

theorem mk_toList (s : String) : String.mk s.toList = s := rfl

theorem pyReplace_of_not_occurs (s : String) (rep : String)
    (h : occursStr ".txt" s = false) : pyReplace s ".txt" rep = s := by
  have e : pyReplace s ".txt" rep =
      String.mk (pyReplaceCore '.' ['t', 'x', 't'] rep.toList s.toList.length
        s.toList) := rfl
  rw [e, pyReplaceCore_of_not_occurs '.' ['t', 'x', 't'] rep.toList s.toList
    s.toList.length h]
  exact mk_toList s

/-- Inversion: everything that must have happened for `process_line` to
accept a record. -/
theorem process_line_ok_some (net : Network) (line : String) (eh : Int)
    (ml : Option Int) (ahd : Int) (r : PeerRec)
    (h : process_line net line eh ml ahd = .ok (some r)) :
    ∃ pid hostport ip portStr port latency moniker node_id,
      pySplit line '@' = [pid, hostport] ∧
      pySplit hostport ':' = [ip, portStr] ∧
      pyIntOfString portStr = some port ∧
      net.conn ip port = some latency ∧
      (∀ m, ml = some m → latency ≤ (m : ℚ)) ∧
      net.status ip (port + 1) = some (r.2.1, moniker, node_id) ∧
      |r.2.1 - eh| ≤ ahd ∧
      r = (line, r.2.1,
        { moniker := moniker, node_id := node_id, ip := ip, port := port,
          full_peer := node_id ++ "@" ++ ip ++ ":" ++ toString port,
          latency := pyTrunc latency }) := by
  unfold process_line at h
  split at h
  next pid hostport hsp1 =>
    split at h
    next ip portStr hsp2 =>
      split at h
      next hport => simp at h
      next port hport =>
        split at h
        next latency hconn =>
          split at h
          next hml =>
            split at h
            next bh moniker node_id hstat =>
              split at h
              next hdiff =>
                cases h
                refine ⟨pid, hostport, ip, portStr, port, latency, moniker, node_id,
                  hsp1, hsp2, hport, hconn, ?_, hstat, hdiff, rfl⟩
                intro m hm
                subst hm
                simpa using hml
              next => simp at h
            next => simp at h
          next => simp at h
        next => simp at h
    next => simp at h
  next => simp at h

/-- A line with the wrong number of `'@'` parts is rejected with `None`. -/
theorem process_line_no_at (net : Network) (line : String) (eh : Int)
    (ml : Option Int) (ahd : Int) (h : (pySplit line '@').length ≠ 2) :
    process_line net line eh ml ahd = .ok none := by
  unfold process_line
  split
  next pid hostport hsp => rw [hsp] at h; simp at h
  next => rfl

/-- A line with the wrong number of `':'` parts in its host part is rejected
with `None`. -/
theorem process_line_no_colon (net : Network) (line : String) (eh : Int)
    (ml : Option Int) (ahd : Int) (pid hostport : String)
    (hsp1 : pySplit line '@' = [pid, hostport])
    (h : (pySplit hostport ':').length ≠ 2) :
    process_line net line eh ml ahd = .ok none := by
  simp only [process_line, hsp1]
  split
  next ip portStr hsp => rw [hsp] at h; simp at h
  next => rfl

/-- A non-numeric port makes `int(ip_port[1])` raise `ValueError`, which
escapes `process_line`. -/
theorem process_line_bad_port (net : Network) (line : String) (eh : Int)
    (ml : Option Int) (ahd : Int) (pid hostport ip portStr : String)
    (hsp1 : pySplit line '@' = [pid, hostport])
    (hsp2 : pySplit hostport ':' = [ip, portStr])
    (hport : pyIntOfString portStr = none) :
    process_line net line eh ml ahd = .error (.valueError portStr) := by
  simp only [process_line, hsp1, hsp2, hport]

/-- Once a line parses and connects, `process_line` is the latency check
followed by the status probe and the height check. -/
theorem process_line_eval (net : Network) (line : String) (eh : Int)
    (ml : Option Int) (ahd : Int) (pid hostport ip portStr : String)
    (port : Int) (latency : ℚ)
    (hsp1 : pySplit line '@' = [pid, hostport])
    (hsp2 : pySplit hostport ':' = [ip, portStr])
    (hport : pyIntOfString portStr = some port)
    (hconn : net.conn ip port = some latency) :
    process_line net line eh ml ahd =
      if (match ml with
          | none => true
          | some m => decide (latency ≤ (m : ℚ))) then
        match net.status ip (port + 1) with
        | some (block_height, moniker, node_id) =>
          if |block_height - eh| ≤ ahd then
            .ok (some (line, block_height,
              { moniker := moniker, node_id := node_id, ip := ip, port := port,
                full_peer := node_id ++ "@" ++ ip ++ ":" ++ toString port,
                latency := pyTrunc latency }))
          else .ok none
        | none => .ok none
      else .ok none := by
  simp only [process_line, hsp1, hsp2, hport, hconn]

/-- Dropping a line whose task raises an exception: it lands in the error
log and the other lines' contributions are untouched. -/
theorem check_nodes_drop_error (net : Network) (pre : List String) (bad : String)
    (post : List String) (eh : Int) (ml : Option Int) (ahd : Int) (e : PyError)
    (hbad : process_line net bad eh ml ahd = .error e) :
    (check_nodes net (pre ++ bad :: post) eh ml ahd).1 =
      (check_nodes net (pre ++ post) eh ml ahd).1 ∧
    (check_nodes net (pre ++ bad :: post) eh ml ahd).2.1 =
      (check_nodes net (pre ++ post) eh ml ahd).2.1 ∧
    (bad, e) ∈ (check_nodes net (pre ++ bad :: post) eh ml ahd).2.2 := by
  rw [check_nodes_eq, check_nodes_eq]
  refine ⟨?_, ?_, ?_⟩
  · simp [List.filterMap_append, List.filterMap_cons, acceptedRec, hbad]
  · simp [List.filterMap_append, List.filterMap_cons, acceptedInfo, hbad]
  · simp [List.filterMap_append, List.filterMap_cons, errorLog, hbad]

/-! ## Claims -/

/-- Claim C1: every record accepted by `process_line` satisfies
`|height - referenceHeight| ≤ acceptedDiff`, and a descriptor whose reported
height differs from the reference by more than `acceptedDiff` yields
`None`. -/
theorem c1_height_filter (net : Network) (line : String) (eh : Int)
    (ml : Option Int) (ahd : Int) :
    (∀ r : PeerRec, process_line net line eh ml ahd = .ok (some r) →
      |r.2.1 - eh| ≤ ahd) ∧
    (∀ (pid hostport ip portStr : String) (port : Int) (latency : ℚ)
        (bh : Int) (moniker node_id : String),
      pySplit line '@' = [pid, hostport] →
      pySplit hostport ':' = [ip, portStr] →
      pyIntOfString portStr = some port →
      net.conn ip port = some latency →
      (∀ m, ml = some m → latency ≤ (m : ℚ)) →
      net.status ip (port + 1) = some (bh, moniker, node_id) →
      ahd < |bh - eh| →
      process_line net line eh ml ahd = .ok none) := by
  constructor
  · intro r h
    obtain ⟨_, _, _, _, _, _, _, _, _, _, _, _, _, _, hdiff, _⟩ :=
      process_line_ok_some net line eh ml ahd r h
    exact hdiff
  · intro pid hostport ip portStr port latency bh moniker node_id
      hsp1 hsp2 hport hconn hml hstat hfar
    rw [process_line_eval net line eh ml ahd pid hostport ip portStr port latency
      hsp1 hsp2 hport hconn]
    simp only [hstat]
    rw [if_neg (not_le.mpr hfar)]
    exact ite_self _

/-- Witness for C1 at concrete inputs: `netA` (height 1003) is accepted at
reference 1000 with tolerance 5, `netB` (height 990) is rejected. -/
theorem c1_height_filter_witness :
    |(1003 : Int) - 1000| ≤ 5 ∧
    process_line netB "id@host:26656" 1000 none 5 = .ok none := by
  constructor
  · exact (c1_height_filter netA "id@host:26656" 1000 none 5).1
      ("id@host:26656", 1003,
        { moniker := "m", node_id := "id9", ip := "host", port := 26656,
          full_peer := "id9@host:26656", latency := 20 }) (by decide)
  · exact (c1_height_filter netB "id@host:26656" 1000 none 5).2
      "id" "host:26656" "host" "26656" 26656 20 990 "m" "id9"
      (by decide) (by decide) (by decide) (by decide)
      (by intro m hm; simp at hm) (by decide) (by decide)

/-- Claim C2: the selection is the stable height-descending sort truncated
to the first `topN` records: its length is `min topN #records`, it is
height-descending, the sort is a permutation that preserves the relative
order of equal-height records, the saved count equals `min topN #records`,
and when `topN` is at least the record count the full (sorted) set is
returned. -/
theorem c2_ranked_selection (connections : List PeerRec) (top_n : Nat) :
    (top_connections connections top_n).length = min top_n connections.length ∧
    (top_connections connections top_n).Pairwise (fun a b => b.2.1 ≤ a.2.1) ∧
    List.Perm (pySortDesc connections) connections ∧
    (∀ ht : Int,
      (pySortDesc connections).filter (fun r => decide (r.2.1 = ht)) =
        connections.filter (fun r => decide (r.2.1 = ht))) ∧
    (∀ (fs : FileSys) (fname : String),
      (save_top_connections fs connections fname top_n).2 =
        min top_n connections.length) ∧
    (connections.length ≤ top_n →
      top_connections connections top_n = pySortDesc connections) := by
  have hlen : (top_connections connections top_n).length =
      min top_n connections.length := by
    unfold top_connections
    rw [List.length_take, (pySortDesc_perm connections).length_eq]
  refine ⟨hlen, ?_, pySortDesc_perm connections,
    pySortDesc_filter_height connections, fun fs fname => hlen, ?_⟩
  · exact (pySortDesc_pairwise connections).sublist
      (List.take_sublist top_n (pySortDesc connections))
  · intro hle
    unfold top_connections
    apply List.take_of_length_le
    rw [(pySortDesc_perm connections).length_eq]
    exact hle

/-- Witness for C2: with two accepted records and `topN = 5`, the full
sorted set is returned. -/
theorem c2_ranked_selection_witness :
    ([(("a", (1 : Int), (⟨"", "A", "", 0, "", 0⟩ : MonikerInfo))),
      ("b", (2 : Int), (⟨"", "B", "", 0, "", 0⟩ : MonikerInfo))] :
        List PeerRec).length ≤ 5 ∧
    top_connections
      [(("a", (1 : Int), (⟨"", "A", "", 0, "", 0⟩ : MonikerInfo))),
       ("b", (2 : Int), (⟨"", "B", "", 0, "", 0⟩ : MonikerInfo))] 5 =
    pySortDesc
      [(("a", (1 : Int), (⟨"", "A", "", 0, "", 0⟩ : MonikerInfo))),
       ("b", (2 : Int), (⟨"", "B", "", 0, "", 0⟩ : MonikerInfo))] :=
  ⟨by decide,
   (c2_ranked_selection
      [(("a", (1 : Int), (⟨"", "A", "", 0, "", 0⟩ : MonikerInfo))),
       ("b", (2 : Int), (⟨"", "B", "", 0, "", 0⟩ : MonikerInfo))] 5).2.2.2.2.2
     (by decide)⟩

/-- Counterexample to claim C3 as stated: the descriptor `id@host:abc` has a
non-numeric port, yet `process_line` does not return `None` — the
`ValueError` raised by `int('abc')` escapes the call. -/
theorem c3_counterexample :
    process_line netA "id@host:abc" 1000 none 5 = .error (.valueError "abc") ∧
    process_line netA "id@host:abc" 1000 none 5 ≠ .ok none := by
  decide

/-- Claim C3 (amended): a descriptor with the wrong number of `'@'` or `':'`
parts makes `process_line` return `None` without raising; a descriptor with
a non-numeric port makes `process_line` raise `ValueError`, which the
scheduler loop catches and logs, so the descriptor contributes no record and
all remaining descriptors are still processed. -/
theorem c3_malformed_discarded :
    (∀ (net : Network) (line : String) (eh : Int) (ml : Option Int) (ahd : Int),
      (pySplit line '@').length ≠ 2 → process_line net line eh ml ahd = .ok none) ∧
    (∀ (net : Network) (line : String) (eh : Int) (ml : Option Int) (ahd : Int)
        (pid hostport : String),
      pySplit line '@' = [pid, hostport] → (pySplit hostport ':').length ≠ 2 →
      process_line net line eh ml ahd = .ok none) ∧
    (∀ (net : Network) (line : String) (eh : Int) (ml : Option Int) (ahd : Int)
        (pid hostport ip portStr : String),
      pySplit line '@' = [pid, hostport] → pySplit hostport ':' = [ip, portStr] →
      pyIntOfString portStr = none →
      process_line net line eh ml ahd = .error (.valueError portStr)) ∧
    (∀ (net : Network) (pre : List String) (bad : String) (post : List String)
        (eh : Int) (ml : Option Int) (ahd : Int) (e : PyError),
      process_line net bad eh ml ahd = .error e →
      (check_nodes net (pre ++ bad :: post) eh ml ahd).1 =
        (check_nodes net (pre ++ post) eh ml ahd).1 ∧
      (check_nodes net (pre ++ bad :: post) eh ml ahd).2.1 =
        (check_nodes net (pre ++ post) eh ml ahd).2.1 ∧
      (bad, e) ∈ (check_nodes net (pre ++ bad :: post) eh ml ahd).2.2) :=
  ⟨process_line_no_at,
   fun net line eh ml ahd pid hostport h1 h2 =>
     process_line_no_colon net line eh ml ahd pid hostport h1 h2,
   fun net line eh ml ahd pid hostport ip portStr h1 h2 h3 =>
     process_line_bad_port net line eh ml ahd pid hostport ip portStr h1 h2 h3,
   fun net pre bad post eh ml ahd e hbad =>
     check_nodes_drop_error net pre bad post eh ml ahd e hbad⟩

/-- Witness for the amended C3 at concrete descriptors: no `'@'`, no port
field, non-numeric port, and the scheduler skipping the raising line. -/
theorem c3_malformed_discarded_witness :
    process_line netA "idhost" 1000 none 5 = .ok none ∧
    process_line netA "id@host" 1000 none 5 = .ok none ∧
    process_line netA "id@host:abc" 1000 none 5 = .error (.valueError "abc") ∧
    (check_nodes netA (["x@h:1"] ++ "id@host:abc" :: ["y@h:2"]) 1000 none 5).1 =
      (check_nodes netA (["x@h:1"] ++ ["y@h:2"]) 1000 none 5).1 :=
  ⟨c3_malformed_discarded.1 netA "idhost" 1000 none 5 (by decide),
   c3_malformed_discarded.2.1 netA "id@host" 1000 none 5 "id" "host"
     (by decide) (by decide),
   c3_malformed_discarded.2.2.1 netA "id@host:abc" 1000 none 5
     "id" "host:abc" "host" "abc" (by decide) (by decide) (by decide),
   (c3_malformed_discarded.2.2.2 netA ["x@h:1"] "id@host:abc" ["y@h:2"]
     1000 none 5 (.valueError "abc") (by decide)).1⟩

/-- Claim C4 — evaluation at the failing input: an empty or whitespace-only
peers file parses to `['']` (Python `''.split(',')`), which is a nonempty,
truthy list, so the `if not lines: sys.exit(1)` guard does not fire and the
run proceeds to probe the single empty descriptor (which is then silently
discarded), ending with a success status instead of the claimed failure. -/
theorem c4_empty_file_not_fatal :
    parse_file_content "" = [""] ∧
    main_lines_from_file "" = .proceed [""] ∧
    main_lines_from_file " \n " = .proceed [""] ∧
    (∀ (net : Network) (eh : Int) (ml : Option Int) (ahd : Int),
      process_line net "" eh ml ahd = .ok none) := by
  refine ⟨by decide, by decide, by decide, ?_⟩
  intro net eh ml ahd
  exact process_line_no_at net "" eh ml ahd (by decide)

/-- Claim C5: when `maxLatency` is configured, every accepted record's
measured connection latency is within the bound (hence so is the truncated
latency stored in the record), and a reachable descriptor whose measured
latency exceeds the bound yields `None`. -/
theorem c5_latency_filter (net : Network) (line : String) (eh : Int)
    (ml : Option Int) (ahd : Int) :
    (∀ (r : PeerRec) (m : Int), process_line net line eh ml ahd = .ok (some r) →
      ml = some m →
      ∃ latency : ℚ, net.conn r.2.2.ip r.2.2.port = some latency ∧
        latency ≤ (m : ℚ) ∧ r.2.2.latency = pyTrunc latency ∧ r.2.2.latency ≤ m) ∧
    (∀ (pid hostport ip portStr : String) (port : Int) (latency : ℚ) (m : Int),
      pySplit line '@' = [pid, hostport] →
      pySplit hostport ':' = [ip, portStr] →
      pyIntOfString portStr = some port →
      net.conn ip port = some latency →
      ml = some m → (m : ℚ) < latency →
      process_line net line eh ml ahd = .ok none) := by
  constructor
  · intro r m h hm
    obtain ⟨rl, rh, rinfo⟩ := r
    obtain ⟨pid, hostport, ip, portStr, port, latency, moniker, node_id,
      hsp1, hsp2, hport, hconn, hml, hstat, hdiff, hr⟩ :=
      process_line_ok_some net line eh ml ahd (rl, rh, rinfo) h
    simp only [Prod.mk.injEq] at hr
    obtain ⟨hrl, -, hrinfo⟩ := hr
    subst hrinfo
    exact ⟨latency, hconn, hml m hm, rfl, pyTrunc_le_intCast (hml m hm)⟩
  · intro pid hostport ip portStr port latency m hsp1 hsp2 hport hconn hm hlt
    subst hm
    rw [process_line_eval net line eh (some m) ahd pid hostport ip portStr port
      latency hsp1 hsp2 hport hconn]
    simp [decide_eq_false (not_le.mpr hlt)]

/-- Witness for C5: `netD` (latency 75 ms) is rejected under a 50 ms bound,
and `netA` (latency 20 ms) is accepted under a 100 ms bound. -/
theorem c5_latency_filter_witness :
    process_line netD "id@host:26656" 1000 (some 50) 5 = .ok none ∧
    (∃ latency : ℚ, netA.conn "host" 26656 = some latency ∧
      latency ≤ ((100 : Int) : ℚ) ∧ (20 : Int) = pyTrunc latency ∧
      (20 : Int) ≤ 100) := by
  constructor
  · exact (c5_latency_filter netD "id@host:26656" 1000 (some 50) 5).2
      "id" "host:26656" "host" "26656" 26656 75 50
      (by decide) (by decide) (by decide) (by decide) rfl (by decide)
  · exact (c5_latency_filter netA "id@host:26656" 1000 (some 100) 5).1
      ("id@host:26656", 1003,
        { moniker := "m", node_id := "id9", ip := "host", port := 26656,
          full_peer := "id9@host:26656", latency := 20 }) 100 (by decide) rfl

/-- Claim C6: the primary selection file and the ids-only file are written
from the same truncated, height-sorted list: the primary holds the
comma-joined descriptor lines and the ids-only file the comma-joined
reported identities, entry for entry, in the same order and with the same
count. -/
theorem c6_ids_mirror_primary (fs : FileSys) (connections : List PeerRec)
    (output_filename : String) (top_n : Nat)
    (hds : ids_only_filename output_filename ≠ output_filename) :
    (save_top_connections fs connections output_filename top_n).1
        output_filename =
      some (commaJoin ((top_connections connections top_n).map
        (fun c => c.1))) ∧
    (save_top_connections fs connections output_filename top_n).1
        (ids_only_filename output_filename) =
      some (commaJoin ((top_connections connections top_n).map
        (fun c => c.2.2.node_id))) ∧
    ((top_connections connections top_n).map (fun c => c.2.2.node_id)).length =
      ((top_connections connections top_n).map (fun c => c.1)).length := by
  refine ⟨?_, ?_, by simp⟩
  · simp only [save_top_connections, save_ids_only, writeFile]
    rw [if_neg (fun h => hds h.symm)]
    simp
  · simp only [save_top_connections, save_ids_only, writeFile]
    simp

/-- Witness for C6 at `top.txt` with one accepted record. -/
theorem c6_ids_mirror_primary_witness :
    (save_top_connections emptyFS
        [("id9@host:26656", (1003 : Int),
          (⟨"m", "id9", "host", 26656, "id9@host:26656", 20⟩ : MonikerInfo))]
        "top.txt" 3).1 "top.txt" = some "id9@host:26656" ∧
    (save_top_connections emptyFS
        [("id9@host:26656", (1003 : Int),
          (⟨"m", "id9", "host", 26656, "id9@host:26656", 20⟩ : MonikerInfo))]
        "top.txt" 3).1 (ids_only_filename "top.txt") = some "id9" :=
  ⟨(c6_ids_mirror_primary emptyFS
      [("id9@host:26656", (1003 : Int),
        (⟨"m", "id9", "host", 26656, "id9@host:26656", 20⟩ : MonikerInfo))]
      "top.txt" 3 (by decide)).1,
   (c6_ids_mirror_primary emptyFS
      [("id9@host:26656", (1003 : Int),
        (⟨"m", "id9", "host", 26656, "id9@host:26656", 20⟩ : MonikerInfo))]
      "top.txt" 3 (by decide)).2.1⟩

/-- Claim C7: the structured metadata artifact holds one entry per accepted
record — the record's own info dict with moniker, node identity, host, port,
full-peer string and latency — for the entire accepted set: its length
equals the matched count and it does not depend on `topN` at all. -/
theorem c7_metadata_full_set (net : Network) (lines : List String) (eh : Int)
    (ml : Option Int) (ahd : Int) (top_n : Nat) (fname : String) :
    (run_checker net lines eh ml ahd top_n fname true).moniker_file =
      some ((check_nodes net lines eh ml ahd).2.1) ∧
    (check_nodes net lines eh ml ahd).2.1 =
      (check_nodes net lines eh ml ahd).1.map (fun r => r.2.2) ∧
    (check_nodes net lines eh ml ahd).2.1.length =
      (run_checker net lines eh ml ahd top_n fname true).matched ∧
    (∀ n1 n2 : Nat,
      (run_checker net lines eh ml ahd n1 fname true).moniker_file =
        (run_checker net lines eh ml ahd n2 fname true).moniker_file) := by
  have hmap : (check_nodes net lines eh ml ahd).2.1 =
      (check_nodes net lines eh ml ahd).1.map (fun r => r.2.2) := by
    rw [check_nodes_eq]
    simp only [List.map_filterMap]
    have hfg : acceptedInfo net eh ml ahd =
        fun line => (acceptedRec net eh ml ahd line).map (fun r => r.2.2) := by
      funext line
      unfold acceptedInfo acceptedRec
      cases process_line net line eh ml ahd with
      | ok o => cases o <;> rfl
      | error e => rfl
    rw [hfg]
  refine ⟨rfl, hmap, ?_, fun n1 n2 => rfl⟩
  rw [hmap]
  simp [run_checker]

/-- Claim C8: an exception raised while evaluating one descriptor's task is
caught by the scheduler loop and logged together with that descriptor; the
failing descriptor contributes no accepted record or metadata entry, and the
contributions of every other descriptor are exactly what they would be
without it. -/
theorem c8_task_exception_isolated (net : Network) (pre : List String)
    (bad : String) (post : List String) (eh : Int) (ml : Option Int)
    (ahd : Int) (e : PyError)
    (hbad : process_line net bad eh ml ahd = .error e) :
    (check_nodes net (pre ++ bad :: post) eh ml ahd).1 =
      (check_nodes net (pre ++ post) eh ml ahd).1 ∧
    (check_nodes net (pre ++ bad :: post) eh ml ahd).2.1 =
      (check_nodes net (pre ++ post) eh ml ahd).2.1 ∧
    (bad, e) ∈ (check_nodes net (pre ++ bad :: post) eh ml ahd).2.2 :=
  check_nodes_drop_error net pre bad post eh ml ahd e hbad

/-- Witness for C8: the raising descriptor `id@host:abc` between two healthy
ones is logged and skipped while both neighbours still contribute. -/
theorem c8_task_exception_isolated_witness :
    (check_nodes netA (["x@h:1"] ++ "id@host:abc" :: ["y@h:2"]) 1000 none 5).1 =
      (check_nodes netA (["x@h:1"] ++ ["y@h:2"]) 1000 none 5).1 ∧
    ("id@host:abc", PyError.valueError "abc") ∈
      (check_nodes netA (["x@h:1"] ++ "id@host:abc" :: ["y@h:2"]) 1000 none 5).2.2 :=
  ⟨(c8_task_exception_isolated netA ["x@h:1"] "id@host:abc" ["y@h:2"]
      1000 none 5 (.valueError "abc") (by decide)).1,
   (c8_task_exception_isolated netA ["x@h:1"] "id@host:abc" ["y@h:2"]
      1000 none 5 (.valueError "abc") (by decide)).2.2⟩

/-- Claim C9 (implicit in the code): when the primary output filename does
not contain `.txt`, the substring replacement deriving the ids-only filename
leaves it unchanged, so `save_ids_only` reopens the primary file and
overwrites the just-written selection with the comma-joined identities. -/
theorem c9_overwrite_when_no_txt (fs : FileSys) (connections : List PeerRec)
    (output_filename : String) (top_n : Nat)
    (h : occursStr ".txt" output_filename = false) :
    ids_only_filename output_filename = output_filename ∧
    (save_top_connections fs connections output_filename top_n).1
        output_filename =
      some (commaJoin ((top_connections connections top_n).map
        (fun c => c.2.2.node_id))) := by
  have heq : ids_only_filename output_filename = output_filename :=
    pyReplace_of_not_occurs output_filename "_ids_only.txt" h
  refine ⟨heq, ?_⟩
  simp only [save_top_connections, save_ids_only, writeFile, heq]
  simp

/-- Witness for C9 at the `.txt`-free filename `peers`. -/
theorem c9_overwrite_when_no_txt_witness :
    ids_only_filename "peers" = "peers" ∧
    (save_top_connections emptyFS
        [("id9@host:26656", (1003 : Int),
          (⟨"m", "id9", "host", 26656, "id9@host:26656", 20⟩ : MonikerInfo))]
        "peers" 3).1 "peers" = some "id9" :=
  c9_overwrite_when_no_txt emptyFS
    [("id9@host:26656", (1003 : Int),
      (⟨"m", "id9", "host", 26656, "id9@host:26656", 20⟩ : MonikerInfo))]
    "peers" 3 (by decide)

/-- Claim C10: the structured metadata artifact lists the accepted records
in scheduler completion order — the order in which the lines were collected
— with no sorting applied; the height-descending sort used for selection is
applied to the separate connections list only.  At a concrete input whose
completion order is not height-descending, the metadata order (idA before
idB) differs from the ranked outputs (idB before idA). -/
theorem c10_metadata_completion_order (net : Network) (lines : List String)
    (eh : Int) (ml : Option Int) (ahd : Int) (top_n : Nat) (fname : String) :
    (run_checker net lines eh ml ahd top_n fname true).moniker_file =
      some (lines.filterMap (acceptedInfo net eh ml ahd)) ∧
    (run_checker netC ["a@h1:1", "b@h2:1"] 2 none 5 2 "t.txt" true).moniker_file =
      some [⟨"ma", "idA", "h1", 1, "idA@h1:1", 10⟩,
            ⟨"mb", "idB", "h2", 1, "idB@h2:1", 10⟩] ∧
    (run_checker netC ["a@h1:1", "b@h2:1"] 2 none 5 2 "t.txt" true).fs "t.txt" =
      some "b@h2:1,a@h1:1" ∧
    (run_checker netC ["a@h1:1", "b@h2:1"] 2 none 5 2 "t.txt" true).fs
        (ids_only_filename "t.txt") = some "idB,idA" := by
  refine ⟨?_, by decide, by decide, by decide⟩
  simp only [run_checker, check_nodes_eq, if_true]
